import Mathlib

/-!
Verification of the cache-read / integrity-validation / remote-refill /
cache-write reconciliation flow of `src/hooks/useGoldHistory.ts`.

The flow `fetchAndSyncHistory(fromDate, toDate)` is embedded as a pure
function from an environment (the responses of all external collaborators:
the date parser, the document-store read, the remote provider, the batch
commit) to the ordered sequence of observable events it performs, plus a
flag saying whether an exception escaped to the caller.
-/

/-- Modelled from the spec: the fixed maximum-valid-price constant
`MAX_VALID_GOLD_PRICE` lives in `src/lib/constants`, which is not part of
the provided sources; the spec's example scenario fixes it at
200,000,000. -/
def MAX_VALID_GOLD_PRICE : Nat := 200000000

/-- One quotation record, as read from the provider or the cache
(`interface HistoryItem`). -/
structure HistoryItem where
  date : String
  type : String
  buy  : Nat
  sell : Nat
deriving Repr, DecidableEq

/-- The integrity check over a cached series (`hasOutliers` in the source):
true iff some record has `buy` or `sell` strictly above the threshold. -/
def hasOutliers (cachedData : List HistoryItem) : Bool :=
  cachedData.any (fun item =>
    decide (item.buy > MAX_VALID_GOLD_PRICE) || decide (item.sell > MAX_VALID_GOLD_PRICE))

/-- The document written by the batch: the record augmented with the
provenance tag and the sync timestamp (`batch.set(docRef, x)`). -/
structure StoredDoc where
  date : String
  type : String
  buy  : Nat
  sell : Nat
  provider : String
  syncedAt : String
deriving Repr, DecidableEq

/-- Modelled from the spec: the date-formatting utility is the external
`date-fns` `format(new Date(item.date), 'yyyyMMdd_HHmmss')`; the spec
specifies it at its boundary as the `yyyyMMdd_HHmmss` rendering of an
ISO-8601 date string.  We extract the digit positions of the ISO string
`YYYY-MM-DDTHH:mm:ss...`: a pure, deterministic function of the string. -/
def dateKey (s : String) : String :=
  let cs := s.toList
  let pick : List Nat → String := fun idxs =>
    String.mk (idxs.filterMap (fun i => cs.get? i))
  pick [0, 1, 2, 3, 5, 6, 8, 9] ++ "_" ++ pick [11, 12, 14, 15, 17, 18]

/-- The document identifier of a record: `docId` in the source,
`item.type + "_" + dateKey(item.date)`. -/
def docId (item : HistoryItem) : String :=
  item.type ++ "_" ++ dateKey item.date

/-- The staged document for one record: the record's fields plus
`provider: 'SJC'` and `syncedAt` (the write timestamp). -/
def storedDoc (item : HistoryItem) (now : String) : StoredDoc :=
  { date := item.date, type := item.type, buy := item.buy, sell := item.sell,
    provider := "SJC", syncedAt := now }

/-- The whole staged batch: one `(docId, document)` pair per item, in item
order (`items.forEach` in the source). -/
def batchDocs (items : List HistoryItem) (now : String) : List (String × StoredDoc) :=
  items.map (fun item => (docId item, storedDoc item now))

/-- Outcome of the remote provider call (`fetch` + `res.json()`). -/
inductive FetchResp where
  /-- `fetch` itself or `res.json()` throws (network failure). -/
  | netError
  /-- The response status is non-2xx (`!res.ok`). -/
  | httpError
  /-- `json.success` is false or `json.data` is not an array. -/
  | badEnvelope
  /-- A success envelope with an array payload. -/
  | ok (items : List HistoryItem)
deriving Repr, DecidableEq

/-- Outcome of the document-store range read (`getDocs`). -/
inductive ReadResp where
  /-- The read throws (store unavailable). -/
  | err
  /-- The snapshot's documents, in ascending date order per the query's
  `orderBy("date", "asc")`. -/
  | docs (snapshot : List HistoryItem)
deriving Repr, DecidableEq

/-- The responses of every external collaborator for one invocation. -/
structure Env where
  /-- Modelled from the spec: result of the external `dd/MM/yyyy` parse +
  `startOfDay` + `toISOString` on `fromDate`; `none` iff the string is
  malformed (in which case `toISOString` throws on the invalid date). -/
  parsedFrom : Option String
  /-- Same for `toDate` with `endOfDay`. -/
  parsedTo : Option String
  /-- The document-store read outcome. -/
  cache : ReadResp
  /-- The remote provider outcome. -/
  fetch : FetchResp
  /-- Whether `batch.commit()` succeeds. -/
  commitOk : Bool
  /-- The `new Date().toISOString()` used as `syncedAt`. -/
  now : String
deriving Repr, DecidableEq

/-- Observable events of one invocation, in order. -/
inductive Event where
  /-- `setLoading(b)`. -/
  | setLoading (b : Bool)
  /-- `getDocs` awaited with these inclusive ISO bounds. -/
  | cacheRead (lo hi : String)
  /-- The provider HTTP call is issued. -/
  | remoteCall
  /-- `setData(items)`: the result sequence published to the caller. -/
  | publish (items : List HistoryItem)
  /-- `batch.commit()` awaited on these staged documents; the flag records
  whether the commit succeeded. -/
  | commitBatchEv (docs : List (String × StoredDoc)) (ok : Bool)
deriving Repr, DecidableEq

/-- The remote-refill tail of the flow (source lines 55–89): provider call,
envelope validation, publish, and conditional batch write.  Returns the
events performed and whether an exception was raised (to be caught by the
top-level handler). -/
def refillPart (env : Env) (pre : List Event) : List Event × Bool :=
  match env.fetch with
  | FetchResp.netError => (pre ++ [Event.remoteCall], true)
  | FetchResp.httpError => (pre ++ [Event.remoteCall], true)
  | FetchResp.badEnvelope => (pre ++ [Event.remoteCall], false)
  | FetchResp.ok items =>
    let pub := pre ++ [Event.remoteCall, Event.publish items]
    if items.length > 0 then
      (pub ++ [Event.commitBatchEv (batchDocs items env.now) env.commitOk],
       !env.commitOk)
    else
      (pub, false)

/-- The body of the `try` block (source lines 21–90).  Mirrors the source's
control flow: range-bound construction, cache read, integrity check with
fall-through, then refill. -/
def tryBody (env : Env) : List Event × Bool :=
  match env.parsedFrom, env.parsedTo with
  | some lo, some hi =>
    match env.cache with
    | ReadResp.err => ([Event.cacheRead lo hi], true)
    | ReadResp.docs snapshot =>
      let refill := refillPart env [Event.cacheRead lo hi]
      if snapshot.isEmpty then refill
      else if hasOutliers snapshot then refill
      else if snapshot.length > 0 then
        ([Event.cacheRead lo hi, Event.publish snapshot, Event.setLoading false],
         false)
      else refill
  | _, _ =>
    -- `toISOString()` throws on an invalid parsed date, before `getDocs`.
    ([], true)

/-- The caller-facing entry point `fetchAndSyncHistory`: sets the busy
flag, runs the try body, catches every exception (the `catch` only logs),
and clears the busy flag in `finally`.  The second component is whether an
exception escaped to the caller: the catch-all makes it `false`. -/
def fetchAndSyncHistory (env : Env) : List Event × Bool :=
  let body := tryBody env
  let afterCatch : List Event × Bool := (body.1, false)
  (Event.setLoading true :: afterCatch.1 ++ [Event.setLoading false],
   afterCatch.2)

/-- The event trace of one invocation. -/
def flowTrace (env : Env) : List Event :=
  (fetchAndSyncHistory env).1

/-- Whether an exception reached the caller. -/
def flowThrew (env : Env) : Bool :=
  (fetchAndSyncHistory env).2

/-- The result sequence observed by the caller after the trace, starting
from the pre-call value `prev` of the `data` state. -/
def finalData (prev : List HistoryItem) (tr : List Event) : List HistoryItem :=
  tr.foldl (fun acc e =>
    match e with
    | Event.publish items => items
    | _ => acc) prev

/-- The busy flag after the trace. -/
def finalLoading (init : Bool) (tr : List Event) : Bool :=
  tr.foldl (fun acc e =>
    match e with
    | Event.setLoading b => b
    | _ => acc) init

/-- Whether the trace contains a remote provider call. -/
def remoteCalled (tr : List Event) : Bool :=
  tr.any (fun e =>
    match e with
    | Event.remoteCall => true
    | _ => false)

/-- Whether the trace contains a batch-commit attempt (a cache write). -/
def cacheWriteAttempted (tr : List Event) : Bool :=
  tr.any (fun e =>
    match e with
    | Event.commitBatchEv _ _ => true
    | _ => false)

/-- Whether the trace contains a successful batch commit. -/
def cacheWritten (tr : List Event) : Bool :=
  tr.any (fun e =>
    match e with
    | Event.commitBatchEv _ ok => ok
    | _ => false)

/-- The document store, modelled as an association list of
`(identifier, document)` pairs. -/
abbrev Store : Type := List (String × StoredDoc)

/-- The identifiers present in the store. -/
def keys (s : Store) : List String :=
  s.map (fun p => p.1)

/-- Modelled from the spec: the document store's write primitive is an
upsert keyed by the caller-supplied identifier (`batch.set`): overwrite the
document when the identifier exists, append it otherwise. -/
def upsert (s : Store) (id : String) (d : StoredDoc) : Store :=
  if id ∈ keys s then
    s.map (fun p => if p.1 = id then (p.1, d) else p)
  else
    s ++ [(id, d)]

/-- Committing a staged batch: upsert each staged document in order. -/
def commitBatch (s : Store) (docs : List (String × StoredDoc)) : Store :=
  docs.foldl (fun acc p => upsert acc p.1 p.2) s

/-! ### Lemmas about the store model -/

theorem keys_upsert (s : Store) (id : String) (d : StoredDoc) :
    keys (upsert s id d) = if id ∈ keys s then keys s else keys s ++ [id] := by
  unfold upsert
  by_cases h : id ∈ keys s
  · rw [if_pos h, if_pos h]
    unfold keys
    rw [List.map_map]
    apply List.map_congr_left
    intro p _
    by_cases hp : p.1 = id <;> simp [hp]
  · rw [if_neg h, if_neg h]
    unfold keys
    rw [List.map_append]
    rfl

theorem mem_keys_upsert (s : Store) (id : String) (d : StoredDoc) :
    id ∈ keys (upsert s id d) := by
  rw [keys_upsert]
  by_cases h : id ∈ keys s <;> simp [h]

theorem mem_keys_upsert_of_mem (s : Store) (x id : String) (d : StoredDoc)
    (hx : x ∈ keys s) : x ∈ keys (upsert s id d) := by
  rw [keys_upsert]
  by_cases h : id ∈ keys s <;> simp [h, hx]

theorem commitBatch_cons (s : Store) (q : String × StoredDoc)
    (qs : List (String × StoredDoc)) :
    commitBatch s (q :: qs) = commitBatch (upsert s q.1 q.2) qs := rfl

theorem mem_keys_commitBatch_of_mem (docs : List (String × StoredDoc)) (s : Store)
    (x : String) (hx : x ∈ keys s) : x ∈ keys (commitBatch s docs) := by
  induction docs generalizing s with
  | nil => exact hx
  | cons q qs ih =>
    rw [commitBatch_cons]
    exact ih (upsert s q.1 q.2) (mem_keys_upsert_of_mem s x q.1 q.2 hx)

theorem mem_keys_commitBatch_of_mem_docs (docs : List (String × StoredDoc))
    (s : Store) (p : String × StoredDoc) (hp : p ∈ docs) :
    p.1 ∈ keys (commitBatch s docs) := by
  induction docs generalizing s with
  | nil => cases hp
  | cons q qs ih =>
    rw [commitBatch_cons]
    rcases List.mem_cons.mp hp with h | h
    · subst h
      exact mem_keys_commitBatch_of_mem qs _ p.1 (mem_keys_upsert s p.1 p.2)
    · exact ih _ h

theorem keys_commitBatch_of_all_mem (docs : List (String × StoredDoc)) (s : Store)
    (h : ∀ p ∈ docs, p.1 ∈ keys s) : keys (commitBatch s docs) = keys s := by
  induction docs generalizing s with
  | nil => rfl
  | cons q qs ih =>
    rw [commitBatch_cons]
    have hq : q.1 ∈ keys s := h q (List.mem_cons_self q qs)
    have hk : keys (upsert s q.1 q.2) = keys s := by
      rw [keys_upsert, if_pos hq]
    rw [ih (upsert s q.1 q.2) (fun p hp => by
      rw [hk]; exact h p (List.mem_cons_of_mem q hp))]
    exact hk

theorem batchDocs_ids (items : List HistoryItem) (now : String) :
    (batchDocs items now).map (fun p => p.1) = items.map docId := by
  unfold batchDocs
  rw [List.map_map]
  rfl

/-! ### Lemmas about the flow -/

theorem flowTrace_eq (env : Env) :
    flowTrace env = Event.setLoading true :: (tryBody env).1 ++ [Event.setLoading false] := rfl

theorem flowThrew_eq (env : Env) : flowThrew env = false := rfl

theorem tryBody_parsed_cached (env : Env) (lo hi : String) (snap : List HistoryItem)
    (hf : env.parsedFrom = some lo) (ht : env.parsedTo = some hi)
    (hc : env.cache = ReadResp.docs snap) :
    tryBody env =
      (if snap.isEmpty then refillPart env [Event.cacheRead lo hi]
       else if hasOutliers snap then refillPart env [Event.cacheRead lo hi]
       else if snap.length > 0 then
         ([Event.cacheRead lo hi, Event.publish snap, Event.setLoading false],
          false)
       else refillPart env [Event.cacheRead lo hi]) := by
  unfold tryBody
  rw [hf, ht, hc]

theorem tryBody_cacheHit (env : Env) (lo hi : String) (snap : List HistoryItem)
    (hf : env.parsedFrom = some lo) (ht : env.parsedTo = some hi)
    (hc : env.cache = ReadResp.docs snap)
    (hne : snap ≠ []) (hout : hasOutliers snap = false) :
    tryBody env =
      ([Event.cacheRead lo hi, Event.publish snap, Event.setLoading false], false) := by
  rw [tryBody_parsed_cached env lo hi snap hf ht hc]
  cases snap with
  | nil => exact absurd rfl hne
  | cons a as => simp [hout]

theorem tryBody_refill (env : Env) (lo hi : String) (snap : List HistoryItem)
    (hf : env.parsedFrom = some lo) (ht : env.parsedTo = some hi)
    (hc : env.cache = ReadResp.docs snap)
    (hmiss : snap = [] ∨ hasOutliers snap = true) :
    tryBody env = refillPart env [Event.cacheRead lo hi] := by
  rw [tryBody_parsed_cached env lo hi snap hf ht hc]
  rcases hmiss with h | h
  · subst h; simp
  · simp [h]

theorem refill_netError (env : Env) (pre : List Event)
    (h : env.fetch = FetchResp.netError) :
    refillPart env pre = (pre ++ [Event.remoteCall], true) := by
  unfold refillPart; rw [h]

theorem refill_httpError (env : Env) (pre : List Event)
    (h : env.fetch = FetchResp.httpError) :
    refillPart env pre = (pre ++ [Event.remoteCall], true) := by
  unfold refillPart; rw [h]

theorem refill_badEnvelope (env : Env) (pre : List Event)
    (h : env.fetch = FetchResp.badEnvelope) :
    refillPart env pre = (pre ++ [Event.remoteCall], false) := by
  unfold refillPart; rw [h]

theorem refill_ok (env : Env) (pre : List Event) (items : List HistoryItem)
    (h : env.fetch = FetchResp.ok items) (hne : items ≠ []) :
    refillPart env pre =
      (pre ++ [Event.remoteCall, Event.publish items,
               Event.commitBatchEv (batchDocs items env.now) env.commitOk],
       !env.commitOk) := by
  unfold refillPart
  rw [h]
  cases items with
  | nil => exact absurd rfl hne
  | cons a as => simp

theorem refill_ok_empty (env : Env) (pre : List Event)
    (h : env.fetch = FetchResp.ok []) :
    refillPart env pre = (pre ++ [Event.remoteCall, Event.publish []], false) := by
  unfold refillPart
  rw [h]
  simp

theorem remoteCall_in_refill (env : Env) (pre : List Event) :
    Event.remoteCall ∈ (refillPart env pre).1 := by
  unfold refillPart
  cases h : env.fetch with
  | netError => simp
  | httpError => simp
  | badEnvelope => simp
  | ok items => by_cases hl : items.length > 0 <;> simp [hl]

theorem publish_in_refill (env : Env) (pre : List Event) (its : List HistoryItem)
    (h : Event.publish its ∈ (refillPart env pre).1) :
    Event.publish its ∈ pre ∨ env.fetch = FetchResp.ok its := by
  unfold refillPart at h
  cases hf : env.fetch with
  | netError => rw [hf] at h; simp at h; exact Or.inl h
  | httpError => rw [hf] at h; simp at h; exact Or.inl h
  | badEnvelope => rw [hf] at h; simp at h; exact Or.inl h
  | ok items =>
    rw [hf] at h
    by_cases hl : items.length > 0 <;> simp [hl] at h <;>
      rcases h with h | h
    · exact Or.inl h
    · rw [h]; exact Or.inr rfl
    · exact Or.inl h
    · rw [h]; exact Or.inr rfl

theorem remoteCalled_eq_true_of_mem (tr : List Event)
    (h : Event.remoteCall ∈ tr) : remoteCalled tr = true := by
  unfold remoteCalled
  rw [List.any_eq_true]
  exact ⟨Event.remoteCall, h, rfl⟩

theorem hasOutliers_eq_false (snap : List HistoryItem)
    (h : ∀ item ∈ snap,
      item.buy ≤ MAX_VALID_GOLD_PRICE ∧ item.sell ≤ MAX_VALID_GOLD_PRICE) :
    hasOutliers snap = false := by
  unfold hasOutliers
  rw [List.any_eq_false]
  intro item hmem
  rcases h item hmem with ⟨h1, h2⟩
  simp [Nat.not_lt.mpr h1, Nat.not_lt.mpr h2]

theorem hasOutliers_eq_true (snap : List HistoryItem) (item : HistoryItem)
    (hmem : item ∈ snap)
    (hbig : item.buy > MAX_VALID_GOLD_PRICE ∨ item.sell > MAX_VALID_GOLD_PRICE) :
    hasOutliers snap = true := by
  unfold hasOutliers
  rw [List.any_eq_true]
  exact ⟨item, hmem, by rcases hbig with h | h <;> simp [h]⟩

/-- Lexicographic comparison of character lists, used to state the
document store's ascending ordering of the ISO-8601 `date` field (the spec
invariant: string comparison equals chronological comparison). -/
def charsLe : List Char → List Char → Bool
  | [], _ => true
  | _ :: _, [] => false
  | a :: as, b :: bs =>
    if a < b then true else if b < a then false else charsLe as bs

/-- Lexicographic order on ISO-8601 date strings. -/
def isoLe (a b : String) : Bool := charsLe a.toList b.toList

/-! ### Concrete fixtures for witnesses -/

/-- A valid record (prices below the threshold). -/
def witItem : HistoryItem :=
  { date := "2026-01-30T09:00:00.000Z", type := "bar", buy := 92100000,
    sell := 92100000 }

/-- A second valid record, later date, other series type. -/
def witItem2 : HistoryItem :=
  { date := "2026-01-31T09:00:00.000Z", type := "ring", buy := 91000000,
    sell := 91500000 }

/-- A record whose sell price exceeds the threshold. -/
def witOutlier : HistoryItem :=
  { date := "2026-01-31T09:00:00.000Z", type := "bar", buy := 92000000,
    sell := 520000000 }

/-- A base environment with well-formed dates. -/
def witEnv : Env :=
  { parsedFrom := some "2026-01-01T00:00:00.000Z",
    parsedTo := some "2026-01-05T23:59:59.999Z",
    cache := ReadResp.docs [], fetch := FetchResp.badEnvelope,
    commitOk := true, now := "2026-02-01T00:00:00.000Z" }

def envC1 : Env :=
  { witEnv with cache := ReadResp.docs [witItem, witItem2] }

def envC2 : Env :=
  { witEnv with cache := ReadResp.docs [witItem, witOutlier],
                fetch := FetchResp.ok [witItem] }

def envC3 : Env :=
  { witEnv with fetch := FetchResp.ok [witItem] }

def envC4 : Env :=
  { witEnv with fetch := FetchResp.httpError }

/-! ### The claims -/

/-- C1: whenever the cache read returns a non-empty series in which every
record has `buy ≤ MAX_VALID_GOLD_PRICE` and `sell ≤ MAX_VALID_GOLD_PRICE`,
the flow publishes exactly those cached records (ascending by date, as the
query's `orderBy` delivered them) as the result, makes no remote provider
call and attempts no cache write. -/
theorem cache_hit_serves_cached (env : Env) (prev : List HistoryItem)
    (lo hi : String) (snap : List HistoryItem)
    (hf : env.parsedFrom = some lo) (ht : env.parsedTo = some hi)
    (hc : env.cache = ReadResp.docs snap) (hne : snap ≠ [])
    (hvalid : ∀ item ∈ snap,
      item.buy ≤ MAX_VALID_GOLD_PRICE ∧ item.sell ≤ MAX_VALID_GOLD_PRICE)
    (hsorted : List.Pairwise (fun a b => isoLe a.date b.date = true) snap) :
    finalData prev (flowTrace env) = snap
    ∧ List.Pairwise (fun a b => isoLe a.date b.date = true)
        (finalData prev (flowTrace env))
    ∧ remoteCalled (flowTrace env) = false
    ∧ cacheWriteAttempted (flowTrace env) = false := by
  have htb := tryBody_cacheHit env lo hi snap hf ht hc hne
    (hasOutliers_eq_false snap hvalid)
  rw [flowTrace_eq, htb]
  exact ⟨rfl, by rw [show finalData prev
    (Event.setLoading true ::
      [Event.cacheRead lo hi, Event.publish snap, Event.setLoading false] ++
      [Event.setLoading false]) = snap from rfl]; exact hsorted, rfl, rfl⟩

theorem cache_hit_serves_cached_witness :
    finalData [] (flowTrace envC1) = [witItem, witItem2]
    ∧ remoteCalled (flowTrace envC1) = false
    ∧ cacheWriteAttempted (flowTrace envC1) = false :=
  let h := cache_hit_serves_cached envC1 [] "2026-01-01T00:00:00.000Z"
    "2026-01-05T23:59:59.999Z" [witItem, witItem2] rfl rfl rfl
    (by decide) (by decide) (by decide)
  ⟨h.1, h.2.2.1, h.2.2.2⟩

/-- C2: if the cache read returns a non-empty series containing at least
one record with `buy` or `sell` strictly above `MAX_VALID_GOLD_PRICE`, the
whole cached series is discarded — no published result is the cached data;
every published sequence is the remote provider's payload — and a remote
refill call is performed. -/
theorem outlier_veto (env : Env) (lo hi : String) (snap : List HistoryItem)
    (item : HistoryItem)
    (hf : env.parsedFrom = some lo) (ht : env.parsedTo = some hi)
    (hc : env.cache = ReadResp.docs snap) (hmem : item ∈ snap)
    (hbig : item.buy > MAX_VALID_GOLD_PRICE ∨ item.sell > MAX_VALID_GOLD_PRICE) :
    remoteCalled (flowTrace env) = true
    ∧ ∀ its, Event.publish its ∈ flowTrace env → env.fetch = FetchResp.ok its := by
  have htb := tryBody_refill env lo hi snap hf ht hc
    (Or.inr (hasOutliers_eq_true snap item hmem hbig))
  constructor
  · apply remoteCalled_eq_true_of_mem
    rw [flowTrace_eq, htb]
    exact List.mem_cons_of_mem _
      (List.mem_append_left _ (remoteCall_in_refill env _))
  · intro its hp
    rw [flowTrace_eq, htb] at hp
    have hmem2 : Event.publish its ∈ (refillPart env [Event.cacheRead lo hi]).1 := by
      simp at hp
      exact hp
    rcases publish_in_refill env _ its hmem2 with h | h
    · simp at h
    · exact h

theorem outlier_veto_witness :
    remoteCalled (flowTrace envC2) = true
    ∧ envC2.fetch = FetchResp.ok [witItem] :=
  let h := outlier_veto envC2 "2026-01-01T00:00:00.000Z"
    "2026-01-05T23:59:59.999Z" [witItem, witOutlier] witOutlier rfl rfl rfl
    (by decide) (by decide)
  ⟨h.1, h.2 [witItem] (by decide)⟩

/-- C3: whenever the cache read returns an empty series, the flow proceeds
to the remote provider call, and never publishes a cached result: every
published sequence is the remote provider's payload. -/
theorem empty_cache_refills (env : Env) (lo hi : String)
    (hf : env.parsedFrom = some lo) (ht : env.parsedTo = some hi)
    (hc : env.cache = ReadResp.docs []) :
    remoteCalled (flowTrace env) = true
    ∧ ∀ its, Event.publish its ∈ flowTrace env → env.fetch = FetchResp.ok its := by
  have htb := tryBody_refill env lo hi [] hf ht hc (Or.inl rfl)
  constructor
  · apply remoteCalled_eq_true_of_mem
    rw [flowTrace_eq, htb]
    exact List.mem_cons_of_mem _
      (List.mem_append_left _ (remoteCall_in_refill env _))
  · intro its hp
    rw [flowTrace_eq, htb] at hp
    have hmem2 : Event.publish its ∈ (refillPart env [Event.cacheRead lo hi]).1 := by
      simp at hp
      exact hp
    rcases publish_in_refill env _ its hmem2 with h | h
    · simp at h
    · exact h

theorem empty_cache_refills_witness :
    remoteCalled (flowTrace envC3) = true
    ∧ envC3.fetch = FetchResp.ok [witItem] :=
  let h := empty_cache_refills envC3 "2026-01-01T00:00:00.000Z"
    "2026-01-05T23:59:59.999Z" rfl rfl rfl
  ⟨h.1, h.2 [witItem] (by decide)⟩

/-- C4: if the refill is reached and the provider responds with a non-2xx
status or a payload whose success flag is false or whose data field is not
an array, the result sequence keeps its pre-call value, no cache write is
attempted, and no exception reaches the caller. -/
theorem provider_failure_silent (env : Env) (prev : List HistoryItem)
    (lo hi : String) (snap : List HistoryItem)
    (hf : env.parsedFrom = some lo) (ht : env.parsedTo = some hi)
    (hc : env.cache = ReadResp.docs snap)
    (hmiss : snap = [] ∨ hasOutliers snap = true)
    (hfail : env.fetch = FetchResp.httpError ∨ env.fetch = FetchResp.badEnvelope) :
    finalData prev (flowTrace env) = prev
    ∧ cacheWriteAttempted (flowTrace env) = false
    ∧ flowThrew env = false := by
  have htb := tryBody_refill env lo hi snap hf ht hc hmiss
  rcases hfail with h | h
  · rw [flowTrace_eq, htb, refill_httpError env _ h]
    exact ⟨rfl, rfl, rfl⟩
  · rw [flowTrace_eq, htb, refill_badEnvelope env _ h]
    exact ⟨rfl, rfl, rfl⟩

theorem provider_failure_silent_witness :
    finalData [witItem] (flowTrace envC4) = [witItem]
    ∧ cacheWriteAttempted (flowTrace envC4) = false
    ∧ flowThrew envC4 = false :=
  provider_failure_silent envC4 [witItem] "2026-01-01T00:00:00.000Z"
    "2026-01-05T23:59:59.999Z" [] rfl rfl rfl (Or.inl rfl) (Or.inl rfl)

def witItemB : HistoryItem :=
  { date := "2026-01-30T09:00:00.000Z", type := "bar", buy := 1, sell := 2 }

/-- C5: the document identifier is the deterministic function
`type ++ "_" ++ dateKey date` of the record's `type` and `date` fields
alone; hence two refills of the same range with the same provider data
produce the same identifier list (whatever the sync timestamps), and
committing the second batch only overwrites what the first created: the
store's key set does not change. -/
theorem idempotent_write (items : List HistoryItem) (now1 now2 : String)
    (s : Store) :
    (∀ a : HistoryItem, docId a = a.type ++ "_" ++ dateKey a.date)
    ∧ (∀ a b : HistoryItem, a.type = b.type → a.date = b.date →
        docId a = docId b)
    ∧ (batchDocs items now1).map (fun p => p.1)
        = (batchDocs items now2).map (fun p => p.1)
    ∧ keys (commitBatch (commitBatch s (batchDocs items now1))
        (batchDocs items now2))
      = keys (commitBatch s (batchDocs items now1)) := by
  refine ⟨fun a => rfl,
    fun a b htp hd => by unfold docId; rw [htp, hd], ?_, ?_⟩
  · rw [batchDocs_ids, batchDocs_ids]
  · apply keys_commitBatch_of_all_mem
    intro p hp
    unfold batchDocs at hp
    rcases List.mem_map.mp hp with ⟨item, hitem, hpe⟩
    have hmem : (docId item, storedDoc item now1) ∈ batchDocs items now1 :=
      List.mem_map_of_mem _ hitem
    have h1 := mem_keys_commitBatch_of_mem_docs (batchDocs items now1) s
      (docId item, storedDoc item now1) hmem
    rw [← hpe]
    exact h1

theorem idempotent_write_witness :
    docId witItem = docId witItemB
    ∧ keys (commitBatch (commitBatch [] (batchDocs [witItem, witItem2] "T1"))
        (batchDocs [witItem, witItem2] "T2"))
      = keys (commitBatch [] (batchDocs [witItem, witItem2] "T1")) :=
  let h := idempotent_write [witItem, witItem2] "T1" "T2" []
  ⟨h.2.1 witItem witItemB rfl rfl, h.2.2.2⟩

def envC6 : Env :=
  { witEnv with fetch := FetchResp.ok [witItem, witItem2], commitOk := false }

/-- C6: when the refill is reached and the provider succeeds with a
non-empty array, the flow's trace publishes the fresh series strictly
before the batch commit is awaited, and the final published result is the
fresh series whatever the commit outcome — a commit failure does not
retract it. -/
theorem fresh_published_before_write (env : Env) (prev : List HistoryItem)
    (lo hi : String) (snap items : List HistoryItem)
    (hf : env.parsedFrom = some lo) (ht : env.parsedTo = some hi)
    (hc : env.cache = ReadResp.docs snap)
    (hmiss : snap = [] ∨ hasOutliers snap = true)
    (hok : env.fetch = FetchResp.ok items) (hne : items ≠ []) :
    flowTrace env =
      [Event.setLoading true, Event.cacheRead lo hi, Event.remoteCall,
       Event.publish items,
       Event.commitBatchEv (batchDocs items env.now) env.commitOk,
       Event.setLoading false]
    ∧ finalData prev (flowTrace env) = items := by
  have htb := tryBody_refill env lo hi snap hf ht hc hmiss
  have hr := refill_ok env [Event.cacheRead lo hi] items hok hne
  constructor
  · rw [flowTrace_eq, htb, hr]
    rfl
  · rw [flowTrace_eq, htb, hr]
    rfl

theorem fresh_published_before_write_witness :
    finalData [] (flowTrace envC6) = [witItem, witItem2]
    ∧ envC6.commitOk = false :=
  ⟨(fresh_published_before_write envC6 [] "2026-01-01T00:00:00.000Z"
      "2026-01-05T23:59:59.999Z" [] [witItem, witItem2] rfl rfl rfl
      (Or.inl rfl) rfl (by decide)).2, rfl⟩

def envC7 : Env := { witEnv with fetch := FetchResp.ok [] }

/-- C7: when the refill is reached and the provider succeeds with an empty
array, the flow publishes the empty result, ends with the busy flag
cleared, and never attempts a cache write. -/
theorem empty_refill_no_write (env : Env) (prev : List HistoryItem)
    (lo hi : String) (snap : List HistoryItem)
    (hf : env.parsedFrom = some lo) (ht : env.parsedTo = some hi)
    (hc : env.cache = ReadResp.docs snap)
    (hmiss : snap = [] ∨ hasOutliers snap = true)
    (hok : env.fetch = FetchResp.ok []) :
    finalData prev (flowTrace env) = []
    ∧ finalLoading true (flowTrace env) = false
    ∧ cacheWriteAttempted (flowTrace env) = false := by
  have htb := tryBody_refill env lo hi snap hf ht hc hmiss
  rw [flowTrace_eq, htb, refill_ok_empty env _ hok]
  exact ⟨rfl, rfl, rfl⟩

theorem empty_refill_no_write_witness :
    finalData [witItem] (flowTrace envC7) = []
    ∧ finalLoading true (flowTrace envC7) = false
    ∧ cacheWriteAttempted (flowTrace envC7) = false :=
  empty_refill_no_write envC7 [witItem] "2026-01-01T00:00:00.000Z"
    "2026-01-05T23:59:59.999Z" [] rfl rfl rfl (Or.inl rfl) rfl

def envC8 : Env := { witEnv with fetch := FetchResp.ok [witOutlier] }

/-- C8: provider records are never passed through the integrity check —
even when a fetched record's `buy` or `sell` exceeds
`MAX_VALID_GOLD_PRICE`, the fresh series containing it is published as the
result and its document is staged and committed to the cache. -/
theorem provider_outliers_unchecked (env : Env) (prev : List HistoryItem)
    (lo hi : String) (snap items : List HistoryItem) (item : HistoryItem)
    (hf : env.parsedFrom = some lo) (ht : env.parsedTo = some hi)
    (hc : env.cache = ReadResp.docs snap)
    (hmiss : snap = [] ∨ hasOutliers snap = true)
    (hok : env.fetch = FetchResp.ok items)
    (hmem : item ∈ items)
    (hbig : item.buy > MAX_VALID_GOLD_PRICE ∨ item.sell > MAX_VALID_GOLD_PRICE)
    (hcommit : env.commitOk = true) :
    finalData prev (flowTrace env) = items
    ∧ item ∈ finalData prev (flowTrace env)
    ∧ (docId item, storedDoc item env.now) ∈ batchDocs items env.now
    ∧ Event.commitBatchEv (batchDocs items env.now) true ∈ flowTrace env
    ∧ cacheWritten (flowTrace env) = true := by
  have hne : items ≠ [] := by
    intro h
    rw [h] at hmem
    cases hmem
  have htb := tryBody_refill env lo hi snap hf ht hc hmiss
  have hr := refill_ok env [Event.cacheRead lo hi] items hok hne
  rw [flowTrace_eq, htb, hr, hcommit]
  refine ⟨rfl, hmem, List.mem_map_of_mem _ hmem, ?_, rfl⟩
  simp

theorem provider_outliers_unchecked_witness :
    finalData [] (flowTrace envC8) = [witOutlier]
    ∧ cacheWritten (flowTrace envC8) = true :=
  let h := provider_outliers_unchecked envC8 [] "2026-01-01T00:00:00.000Z"
    "2026-01-05T23:59:59.999Z" [] [witOutlier] witOutlier rfl rfl rfl
    (Or.inl rfl) rfl (by decide) (by decide) rfl
  ⟨h.1, h.2.2.2.2⟩

def envC9 : Env := { witEnv with parsedFrom := none }

/-- C9: with a malformed `fromDate` or `toDate` (the external `dd/MM/yyyy`
parse yields no valid bound), the try body raises during range-bound
construction: the trace shows no document-store read, no remote call and
no cache write, the result keeps its pre-call value, and the top-level
handler keeps the exception from the caller. -/
theorem malformed_date_aborts (env : Env) (prev : List HistoryItem)
    (hbad : env.parsedFrom = none ∨ env.parsedTo = none) :
    flowTrace env = [Event.setLoading true, Event.setLoading false]
    ∧ (tryBody env).2 = true
    ∧ remoteCalled (flowTrace env) = false
    ∧ cacheWriteAttempted (flowTrace env) = false
    ∧ finalData prev (flowTrace env) = prev
    ∧ flowThrew env = false := by
  have htb : tryBody env = ([], true) := by
    unfold tryBody
    rcases hbad with h | h
    · rw [h]
    · cases hfa : env.parsedFrom with
      | none => rfl
      | some lo => rw [h]
  rw [flowTrace_eq, htb]
  exact ⟨rfl, rfl, rfl, rfl, rfl, rfl⟩

theorem malformed_date_aborts_witness :
    flowTrace envC9 = [Event.setLoading true, Event.setLoading false]
    ∧ (tryBody envC9).2 = true :=
  let h := malformed_date_aborts envC9 [witItem] (Or.inl rfl)
  ⟨h.1, h.2.1⟩

/-- C10: on every invocation, whatever the environment — cache hit, fresh
serve, provider failure, write failure, read error, parse error — the
trace starts by setting the busy flag and its last event is the `finally`
clearing it, so the flow never terminates with the busy flag set. -/
theorem busy_flag_discipline (env : Env) :
    (flowTrace env).head? = some (Event.setLoading true)
    ∧ finalLoading true (flowTrace env) = false
    ∧ (flowTrace env).getLast? = some (Event.setLoading false) := by
  refine ⟨rfl, ?_, ?_⟩
  · rw [flowTrace_eq]
    unfold finalLoading
    rw [List.foldl_append]
    rfl
  · rw [flowTrace_eq]
    exact List.getLast?_concat _
